import Mathlib

/-!
# Verification of the Tabelão BU dashboard generator

Shallow embedding of `gerar_dashboard.py`: the text normalizer (`norm`), the
cell formatters (`fmt_date`, `fmt_money`, `fmt_efficiency`), the month-key
derivation (`ym_from_date_str`, `month_label_from_ym`), the column
classification performed in `main`, the HTML table renderer
(`df_to_html_table`) and the month collection / sorting done across sheets.

Numeric conventions: Python's `float` is modelled exactly as a dyadic
rational produced by `toBinary64` (round to nearest, 53-bit significand,
ties to even; normal range only — no claim here exercises subnormals,
overflow, or scientific-notation parsing).  Python's fixed-point formatting
`f"{v:.2f}"` correctly rounds the exact binary value to 2 decimal digits
with ties to even, which `centsOf` reproduces on the dyadic rational.
-/

namespace Tabelao

/-! ## Character and list-of-character primitives -/

/-- Whitespace recognised by Python's `str.strip()` (ASCII repertoire). -/
def isWs (c : Char) : Bool :=
  c = ' ' || c = '\t' || c = '\n' || c = '\r' || c = '\x0b' || c = '\x0c'

/-- Drop leading whitespace (left half of `str.strip()`). -/
def trimL : List Char → List Char
  | [] => []
  | c :: cs => if isWs c then trimL cs else c :: cs

/-- Drop trailing whitespace (right half of `str.strip()`). -/
def trimR : List Char → List Char
  | [] => []
  | c :: cs =>
    let r := trimR cs
    if r.isEmpty && isWs c then [] else c :: r

/-- Python `str.strip()` on a character list. -/
def pyStrip (l : List Char) : List Char := trimR (trimL l)

/-- Python `str.strip()` on a `String`. -/
def pyStripStr (s : String) : String := String.mk (pyStrip s.data)

/-- The decimal digit character for `m % 10`. -/
def digitChar0 : Nat → Char
  | 0 => '0' | 1 => '1' | 2 => '2' | 3 => '3' | 4 => '4'
  | 5 => '5' | 6 => '6' | 7 => '7' | 8 => '8' | _ => '9'

/-- Digit character of `k` modulo 10. -/
def digitChar (k : Nat) : Char := digitChar0 (k % 10)

/-- Is `c` one of `'0'`-`'9'`? -/
def isDigitCh (c : Char) : Bool := 48 ≤ c.toNat && c.toNat ≤ 57

/-- Numeric value of a digit character. -/
def digitVal (c : Char) : Nat := c.toNat - 48

/-- Decimal digits of `n`, most significant first (fuel-driven; fuel 40
covers every magnitude reachable in this development). -/
def natDigitsAux : Nat → Nat → List Char
  | 0, _ => []
  | fuel + 1, n => if n < 10 then [digitChar n] else natDigitsAux fuel (n / 10) ++ [digitChar n]

/-- Decimal representation of `n`, as Python `str(n)` for a `Nat`. -/
def natDigits (n : Nat) : List Char := natDigitsAux 40 n

/-- Two-digit zero-padded form, as `%02d` / `str(n).zfill(2)` for `n < 100`. -/
def pad2 (n : Nat) : List Char := [digitChar (n / 10), digitChar n]

/-- Does the list contain character `c` (Python `c in s`)? -/
def containsChar (c : Char) (l : List Char) : Bool := l.any (· = c)

/-- Remove every occurrence of `c` (Python `s.replace(c, "")`). -/
def removeChar (c : Char) (l : List Char) : List Char := l.filter (fun x => ¬ x = c)

/-- Replace every occurrence of `a` by `b` (Python `s.replace(a, b)` for
single characters). -/
def replaceChar (a b : Char) (l : List Char) : List Char :=
  l.map (fun x => if x = a then b else x)

/-! ## Exact rationals and the binary64 model -/

/-- An unnormalised rational `num / den`; every constructor in this file
keeps `den` a positive power of 2 or 10, so the order predicates below are
sound. -/
structure Q2 where
  num : Int
  den : Nat
deriving DecidableEq

/-- Round `a` to the nearest integer, ties to even. -/
def roundTiesEven (a : Q2) : Int :=
  let f := Int.fdiv a.num a.den
  let r2 := 2 * (a.num - f * a.den)
  if r2 < (a.den : Int) then f
  else if (a.den : Int) < r2 then f + 1
  else if f % 2 = 0 then f else f + 1

/-- Floor of base-2 logarithm (fuel-driven; fuel 128 covers all magnitudes
reachable here). -/
def log2Aux : Nat → Nat → Nat
  | 0, _ => 0
  | fuel + 1, n => if n ≤ 1 then 0 else 1 + log2Aux fuel (n / 2)

/-- Value `log2N n` is the binade of `n`: `2 ^ log2N n ≤ n < 2 ^ (log2N n + 1)`
for `1 ≤ n < 2 ^ 128`. -/
def log2N (n : Nat) : Nat := log2Aux 128 n

/-- Binade `e` of the positive rational `n / d`: `2 ^ e ≤ n / d < 2 ^ (e+1)`. -/
def exp2OfPos (n d : Nat) : Int :=
  let e0 : Int := (log2N n : Int) - (log2N d : Int)
  let ge : Bool :=
    if 0 ≤ e0 then decide (d * 2 ^ e0.toNat ≤ n) else decide (d ≤ n * 2 ^ (-e0).toNat)
  if ge then e0 else e0 - 1

/-- The IEEE-754 binary64 value nearest to `a` (round to nearest, ties to
even), returned as an exact rational.  Models Python's `float(...)` results
and float arithmetic rounding for values in the normal range. -/
def toBinary64 (a : Q2) : Q2 :=
  if a.num = 0 then ⟨0, 1⟩ else
  let n := a.num.natAbs
  let d := a.den
  let s : Int := exp2OfPos n d - 52
  let m : Int :=
    if 0 ≤ s then roundTiesEven ⟨(n : Int), d * 2 ^ s.toNat⟩
    else roundTiesEven ⟨(n : Int) * 2 ^ (-s).toNat, d⟩
  let m' : Int := if a.num < 0 then -m else m
  if 0 ≤ s then ⟨m' * 2 ^ s.toNat, 1⟩ else ⟨m', 2 ^ (-s).toNat⟩

/-- Absolute value `|a|`. -/
def qAbs (a : Q2) : Q2 := ⟨(a.num.natAbs : Int), a.den⟩

/-- Product `a * 100` (exact). -/
def q100 (a : Q2) : Q2 := ⟨a.num * 100, a.den⟩

/-- Test `0 ≤ a`. -/
def qNonneg (a : Q2) : Bool := decide (0 ≤ a.num)

/-- Test `a ≤ 1`. -/
def qLeOne (a : Q2) : Bool := decide (a.num ≤ (a.den : Int))

/-- Test `a < 0`. -/
def qNeg (a : Q2) : Bool := decide (a.num < 0)

/-- The integer number of cents printed for `|v|` by `f"{v:.2f}"`:
the exact value `|v| * 100` correctly rounded, ties to even. -/
def centsOf (v : Q2) : Nat := (roundTiesEven (q100 (qAbs v))).toNat

/-! ## Decimal text parsing (Python `float(...)` on plain literals) -/

/-- Accumulating scan of a decimal literal: digits with at most one `'.'`.
Returns the combined digit value and the count of fractional digits.
Models what Python `float` accepts on the inputs this pipeline feeds it;
exotic forms (exponents, `inf`, `nan`, underscores) are treated as
unparseable. -/
def parseDecAux : List Char → Bool → Nat → Nat → Nat → Option (Nat × Nat)
  | [], _, acc, fc, dc => if dc = 0 then none else some (acc, fc)
  | c :: rest, sd, acc, fc, dc =>
    if c = '.' then (if sd then none else parseDecAux rest true acc fc dc)
    else if isDigitCh c then
      parseDecAux rest sd (acc * 10 + digitVal c) (if sd then fc + 1 else fc) (dc + 1)
    else none

/-- Parse a signed plain decimal literal to an exact rational. -/
def parseDecimal? (l : List Char) : Option Q2 :=
  match l with
  | '+' :: rest => (parseDecAux rest false 0 0 0).map (fun p => ⟨(p.1 : Int), 10 ^ p.2⟩)
  | '-' :: rest => (parseDecAux rest false 0 0 0).map (fun p => ⟨-(p.1 : Int), 10 ^ p.2⟩)
  | _ => (parseDecAux l false 0 0 0).map (fun p => ⟨(p.1 : Int), 10 ^ p.2⟩)

/-! ## Fixed-point formatting (Python `f"{v:,.2f}"` / `f"{v:.2f}"`) -/

/-- Insert `'.'` after every 3 digits; operates on a reversed digit list. -/
def group3Aux : Nat → List Char → List Char
  | _, [] => []
  | i, c :: rest =>
    c :: (if (i + 1) % 3 = 0 && !rest.isEmpty then '.' :: group3Aux (i + 1) rest
          else group3Aux (i + 1) rest)

/-- Thousands grouping with `'.'` separators (the Brazilian form the script
produces by swapping `','`/`'.'` in Python's `f"{v:,.2f}"`). -/
def group3 (ds : List Char) : List Char := (group3Aux 0 ds.reverse).reverse

/-- The digits of `f"{v:,.2f}".replace(",", "X").replace(".", ",").replace("X", ".")`:
sign, thousands-grouped integer part, `','`, two cent digits. -/
def moneyDigits (v : Q2) : List Char :=
  let n := centsOf v
  (if qNeg v then ['-'] else []) ++ group3 (natDigits (n / 100)) ++ ',' :: pad2 (n % 100)

/-- Digits of `f"{v:.2f}".replace(".", ",")`: sign, integer part, `','`, two cent digits. -/
def twoDecComma (v : Q2) : List Char :=
  let n := centsOf v
  (if qNeg v then ['-'] else []) ++ natDigits (n / 100) ++ ',' :: pad2 (n % 100)

/-! ## The formatters of `gerar_dashboard.py` -/

/-- The blank/placeholder sentinels tested by the script:
`s in ["", "-", "nan", "NaN"]`. -/
def isNullSentinel (s : String) : Bool :=
  s = "" || s = "-" || s = "nan" || s = "NaN"

/-- Separator handling of `fmt_money` (lines 58-64): with both `'.'` and
`','` present every `'.'` is stripped then `','` becomes `'.'`; with only
`','` present, `','` becomes `'.'`; otherwise the text is left as-is. -/
def moneySeparatorNormalize (s : List Char) : List Char :=
  if containsChar ',' s && containsChar '.' s then replaceChar ',' '.' (removeChar '.' s)
  else if containsChar ',' s then replaceChar ',' '.' s
  else s

/-- Embedding of `fmt_money` (lines 49-69).  The input is `str(x)` for the raw cell, or
`none` when `pd.isna(x)`.  A parse failure returns the stripped original
text (the `except` branch); blank sentinels return `"R$ 0,00"`. -/
def fmt_money (x : Option String) : String :=
  match x with
  | none => "R$ 0,00"
  | some raw =>
    let s := pyStrip raw.data
    if isNullSentinel (String.mk s) then "R$ 0,00" else
    match parseDecimal? (moneySeparatorNormalize s) with
    | none => String.mk s
    | some q => "R$ " ++ String.mk (moneyDigits (toBinary64 q))

/-- Modelled from the spec: the rounding contract of §4.3 — the parsed
value is kept as an exact decimal and its magnitude in cents is obtained by
round-half-up, never through a binary float.  Stated only to compare
`fmt_money` against the spec's words. -/
def specHalfUpCents (q : Q2) : Nat :=
  (Int.fdiv (200 * (q.num.natAbs : Int) + (q.den : Int)) (2 * (q.den : Int))).toNat

/-- Modelled from the spec: `fmt_money` with the §4.3 rounding contract in
place of the code's float conversion; identical on every other path. -/
def specMoneyHalfUp (x : Option String) : String :=
  match x with
  | none => "R$ 0,00"
  | some raw =>
    let s := pyStrip raw.data
    if isNullSentinel (String.mk s) then "R$ 0,00" else
    match parseDecimal? (moneySeparatorNormalize s) with
    | none => String.mk s
    | some q =>
      let n := specHalfUpCents q
      "R$ " ++ String.mk ((if qNeg q then ['-'] else []) ++
        group3 (natDigits (n / 100)) ++ ',' :: pad2 (n % 100))

/-- Embedding of `fmt_efficiency` (lines 72-94).  Strips every `'%'`, re-strips, turns
the decimal comma into a point, parses as a float; a value `v` with
`0 ≤ v ≤ 1` is multiplied by 100 (a float multiplication); the result is
printed with two decimals and a `','` decimal separator plus `'%'`.
Unparseable or blank input yields `"-"`. -/
def fmt_efficiency (x : Option String) : String :=
  match x with
  | none => "-"
  | some raw =>
    let s := pyStrip raw.data
    if isNullSentinel (String.mk s) then "-" else
    let s2 := replaceChar ',' '.' (pyStrip (removeChar '%' s))
    match parseDecimal? s2 with
    | none => "-"
    | some q =>
      let v := toBinary64 q
      let v' := if qNonneg v && qLeOne v then toBinary64 (q100 v) else v
      String.mk (twoDecComma v') ++ "%"

/-! ## Text normalizer `norm` (lines 28-34)

Python does `s.strip().lower()` then NFKD-decomposes and drops combining
code points — note the strip happens BEFORE the decomposition.  For the
Basic Latin / Latin-1 repertoire, lowercasing is a per-character map and
NFKD-plus-drop-combining is a per-character expansion to a character list
(an accented letter becomes its base letter, a spacing accent such as `¨`
becomes a plain space, a vulgar fraction becomes three characters), given
here as explicit association lists (characters outside the tables are
fixed). -/

/-- Python `str.lower()` on the Basic Latin and Latin-1 uppercase letters. -/
def lowerMap : List (Char × Char) :=
  [('A', 'a'), ('B', 'b'), ('C', 'c'), ('D', 'd'), ('E', 'e'), ('F', 'f'),
   ('G', 'g'), ('H', 'h'), ('I', 'i'), ('J', 'j'), ('K', 'k'), ('L', 'l'),
   ('M', 'm'), ('N', 'n'), ('O', 'o'), ('P', 'p'), ('Q', 'q'), ('R', 'r'),
   ('S', 's'), ('T', 't'), ('U', 'u'), ('V', 'v'), ('W', 'w'), ('X', 'x'),
   ('Y', 'y'), ('Z', 'z'),
   ('À', 'à'), ('Á', 'á'), ('Â', 'â'), ('Ã', 'ã'), ('Ä', 'ä'), ('Å', 'å'),
   ('Æ', 'æ'), ('Ç', 'ç'), ('È', 'è'), ('É', 'é'), ('Ê', 'ê'), ('Ë', 'ë'),
   ('Ì', 'ì'), ('Í', 'í'), ('Î', 'î'), ('Ï', 'ï'), ('Ð', 'ð'), ('Ñ', 'ñ'),
   ('Ò', 'ò'), ('Ó', 'ó'), ('Ô', 'ô'), ('Õ', 'õ'), ('Ö', 'ö'), ('Ø', 'ø'),
   ('Ù', 'ù'), ('Ú', 'ú'), ('Û', 'û'), ('Ü', 'ü'), ('Ý', 'ý'), ('Þ', 'þ')]

/-- NFKD decomposition followed by dropping combining code points, per
character, for the Latin-1 block as it can reach this step (after
lowercasing).  Accented letters decompose to their base letter; NBSP and
the spacing accents `¨ ¯ ´ ¸` decompose to a plain space; `ª º µ ¹ ² ³`
and the vulgar fractions decompose to their compatibility forms; `æ ð ø þ`
do not decompose.  Characters outside the table decompose to themselves. -/
def decompMap : List (Char × List Char) :=
  [('\u00A0', [' ']), ('¨', [' ']), ('¯', [' ']), ('´', [' ']), ('¸', [' ']),
   ('ª', ['a']), ('º', ['o']), ('µ', ['μ']),
   ('¹', ['1']), ('²', ['2']), ('³', ['3']),
   ('¼', ['1', '⁄', '4']), ('½', ['1', '⁄', '2']), ('¾', ['3', '⁄', '4']),
   ('à', ['a']), ('á', ['a']), ('â', ['a']), ('ã', ['a']), ('ä', ['a']), ('å', ['a']),
   ('ç', ['c']), ('è', ['e']), ('é', ['e']), ('ê', ['e']), ('ë', ['e']),
   ('ì', ['i']), ('í', ['i']), ('î', ['i']), ('ï', ['i']), ('ñ', ['n']),
   ('ò', ['o']), ('ó', ['o']), ('ô', ['o']), ('õ', ['o']), ('ö', ['o']),
   ('ù', ['u']), ('ú', ['u']), ('û', ['u']), ('ü', ['u']), ('ý', ['y']), ('ÿ', ['y'])]

/-- Per-character lowercasing. -/
def lowerChar (c : Char) : Char := (lowerMap.lookup c).getD c

/-- Per-character NFKD expansion with combining marks dropped. -/
def decompChar (c : Char) : List Char := (decompMap.lookup c).getD [c]

/-- The per-character action of `norm` after stripping: lowercase, then
decompose and drop combining marks. -/
def normChars (c : Char) : List Char := decompChar (lowerChar c)

/-- Embedding of `norm` (lines 28-34): `None` becomes `""`; otherwise trim, then
lowercase, then NFKD-decompose and drop combining code points.  Because the
trim comes first, a character that decomposes to whitespace (such as `¨`,
which becomes a plain space) can leave leading or trailing whitespace in
the result. -/
def norm (x : Option String) : String :=
  match x with
  | none => ""
  | some s => String.mk ((pyStrip s.data).flatMap normChars)

/-! ## Column classification (`main`, lines 311-320) -/

/-- The semantic kinds the per-column loop distinguishes. -/
inductive ColKind
  | efficiency
  | money
  | plain
deriving DecidableEq

/-- Python `needle in hay` substring test. -/
def containsTok (needle hay : String) : Bool := decide (needle.data <:+: hay.data)

/-- The ordered per-column rules of `main`: an `"eficiencia"` substring in
the normalized header selects the efficiency formatter; otherwise an
`"r$"` substring or exact `"faturamento"` selects the money formatter;
otherwise the column is left as-is. -/
def classify (header : String) : ColKind :=
  let c := norm (some header)
  if containsTok "eficiencia" c then .efficiency
  else if containsTok "r$" c || c = "faturamento" then .money
  else .plain

/-! ## Dates and month keys -/

/-- A calendar date as carried by a pandas `Timestamp`. -/
structure Date where
  day : Nat
  month : Nat
  year : Nat
deriving DecidableEq

/-- Gregorian leap year. -/
def isLeap (y : Nat) : Bool := (y % 4 = 0 && ¬ y % 100 = 0) || y % 400 = 0

/-- Days in a month. -/
def daysInMonth (m y : Nat) : Nat :=
  if m = 2 then (if isLeap y then 29 else 28)
  else if m = 4 || m = 6 || m = 9 || m = 11 then 30 else 31

/-- A calendar-valid date whose year lies strictly inside the pandas
`Timestamp` range (the boundary years 1677 and 2262 are only partly
representable). -/
def ValidTs (d : Date) : Prop :=
  1 ≤ d.day ∧ d.day ≤ daysInMonth d.month d.year ∧ 1 ≤ d.month ∧ d.month ≤ 12 ∧
    1678 ≤ d.year ∧ d.year ≤ 2261

instance (d : Date) : Decidable (ValidTs d) := by unfold ValidTs; infer_instance

/-- Four-digit zero-padded year, as `strftime("%Y")` in this range. -/
def pad4 (n : Nat) : List Char :=
  [digitChar (n / 1000), digitChar (n / 100), digitChar (n / 10), digitChar n]

/-- Embedding of `fmt_date` (lines 40-46) after pandas parsing: the input is the
`pd.to_datetime(x, dayfirst=True, errors="coerce")` result, `none` standing
for blank/sentinel/unparseable (`NaT`); output is `dt.strftime("%d/%m/%Y")`
or `""`. -/
def fmt_date (x : Option Date) : String :=
  match x with
  | none => ""
  | some d => String.mk (pad2 d.day ++ '/' :: pad2 d.month ++ '/' :: pad4 d.year)

/-- Model of `pd.to_datetime(s, dayfirst=True, errors="coerce")` on the
`dd/mm/yyyy` strings this pipeline produces (the only shape `fmt_date`
emits): both components zero-padded, the date calendar-valid and inside
the `Timestamp` range; anything else is `NaT`, i.e. `none`. -/
def parseDdMmYyyy (s : String) : Option Date :=
  match s.data with
  | [d1, d2, '/', m1, m2, '/', y1, y2, y3, y4] =>
    if isDigitCh d1 && isDigitCh d2 && isDigitCh m1 && isDigitCh m2 &&
        isDigitCh y1 && isDigitCh y2 && isDigitCh y3 && isDigitCh y4 then
      if ValidTs ⟨10 * digitVal d1 + digitVal d2, 10 * digitVal m1 + digitVal m2,
          1000 * digitVal y1 + 100 * digitVal y2 + 10 * digitVal y3 + digitVal y4⟩ then
        some ⟨10 * digitVal d1 + digitVal d2, 10 * digitVal m1 + digitVal m2,
          1000 * digitVal y1 + 100 * digitVal y2 + 10 * digitVal y3 + digitVal y4⟩
      else none
    else none
  | _ => none

/-- Embedding of `ym_from_date_str` (lines 97-104): empty input gives `""`; otherwise
re-parse the display string and emit `f"{dt.year}-{str(dt.month).zfill(2)}"`,
or `""` on `NaT`. -/
def ym_from_date_str (s : String) : String :=
  if s = "" then ""
  else
    match parseDdMmYyyy s with
    | none => ""
    | some d => String.mk (natDigits d.year ++ '-' :: pad2 d.month)

/-- Python `str.split(sep)` for a one-character separator. -/
def splitChar (sep : Char) : List Char → List (List Char)
  | [] => [[]]
  | c :: rest =>
    let r := splitChar sep rest
    if c = sep then [] :: r
    else
      match r with
      | [] => [[c]]
      | h :: t => (c :: h) :: t

/-- Embedding of `month_label_from_ym` (lines 107-113): `YYYY-MM` becomes `MM/YYYY`;
anything that does not split into exactly two parts raises in the unpacking
and is returned unchanged (the `except` branch). -/
def month_label_from_ym (ym : String) : String :=
  match splitChar '-' ym.data with
  | [a, b] => String.mk b ++ "/" ++ String.mk a
  | _ => ym

/-- The month key derived directly from a parsed date, in the shape
`ym_from_date_str` emits: `str(year)` then `'-'` then the zero-padded
month. -/
def ymOfDate (d : Date) : String :=
  String.mk (natDigits d.year ++ '-' :: pad2 d.month)

/-- Is `s` a well-formed `YYYY-MM` month key (zero-padded month 01-12)? -/
def isValidYM (s : String) : Bool :=
  match s.data with
  | [y1, y2, y3, y4, '-', m1, m2] =>
    isDigitCh y1 && isDigitCh y2 && isDigitCh y3 && isDigitCh y4 &&
      isDigitCh m1 && isDigitCh m2 &&
      (1 ≤ 10 * digitVal m1 + digitVal m2 && 10 * digitVal m1 + digitVal m2 ≤ 12)
  | _ => false

/-! ## HTML escaping and the table renderer -/

/-- Embedding of `safe_str` (lines 116-119): `NaN` becomes `""`, everything else is its
text. -/
def safe_str (x : Option String) : String :=
  match x with
  | none => ""
  | some s => s

/-- The expansion of one character under Python `html.escape(s)` (quote
mode on): `&`, `<`, `>`, `"` and `'` (code point 39) become entities. -/
def escapeChar (c : Char) : List Char :=
  if c = '&' then "&amp;".data
  else if c = '<' then "&lt;".data
  else if c = '>' then "&gt;".data
  else if c = '"' then "&quot;".data
  else if c.toNat = 39 then "&#x27;".data
  else [c]

/-- Python `html.escape(s)` (its chained `str.replace` calls never rewrite
an inserted entity, so the result is this per-character expansion). -/
def escape (s : String) : String := String.mk (s.data.flatMap escapeChar)

/-- Number of occurrences of `c` in `s`. -/
def countCh (c : Char) (s : String) : Nat := s.data.count c

/-- A sheet as it reaches `df_to_html_table`: header cells and row cells
are raw values, `none` standing for `NaN`. -/
structure Table where
  headers : List (Option String)
  rows : List (List (Option String))

/-- Line 134: `df.columns = [safe_str(c).strip() for c in df.columns]`. -/
def colNames (t : Table) : List String :=
  t.headers.map (fun c => pyStripStr (safe_str c))

/-- The position of the `"Data"` column among the cleaned names, if any
(`has_data` plus the `row["Data"]` lookup). -/
def dataIdx (t : Table) : Option Nat := (colNames t).findIdx? (fun h => h = "Data")

/-- The month key computed for one row (lines 143-145): `""` without a
`"Data"` column, otherwise `ym_from_date_str(safe_str(row["Data"]))`. -/
def rowMonthKey (t : Table) (row : List (Option String)) : String :=
  match dataIdx t with
  | none => ""
  | some i => ym_from_date_str (safe_str (row.getD i none))

/-- One `<th>` cell (line 138). -/
def thCell (c : String) : String := "<th>" ++ escape c ++ "</th>"

/-- One `<td>` cell (line 150). -/
def tdCell (v : Option String) : String := "<td>" ++ escape (safe_str v) ++ "</td>"

/-- The `<thead>` block (lines 137-139). -/
def theadHtml (t : Table) : String :=
  "<thead><tr>" ++ String.join ((colNames t).map thCell) ++ "</tr></thead>"

/-- One `<tr>` (lines 149-156): a row whose month key is non-empty gets a
`data-month` attribute; a row with an empty key is still rendered, as a
plain `<tr>`. -/
def rowHtml (t : Table) (row : List (Option String)) : String :=
  let tds := String.join (row.map tdCell)
  let mk := rowMonthKey t row
  if mk = "" then "<tr>" ++ tds ++ "</tr>"
  else "<tr data-month=\"" ++ escape mk ++ "\">" ++ tds ++ "</tr>"

/-- The `rows` list built by the loop (lines 141-156): one entry per input
row. -/
def tableRowsHtml (t : Table) : List String := t.rows.map (rowHtml t)

/-- Adding one element to the `months_set` model (`set.add`). -/
def setInsert (l : List String) (x : String) : List String :=
  if x ∈ l then l else x :: l

/-- The `months_set.add(month_key)` step of one loop iteration (lines
143-147): only non-empty keys are added. -/
def addRowMonth (t : Table) (acc : List String) (row : List (Option String)) : List String :=
  let mk := rowMonthKey t row
  if mk = "" then acc else setInsert acc mk

/-- The contents of `months_set` after the row loop of one sheet. -/
def dfMonths (t : Table) (acc : List String) : List String :=
  t.rows.foldl (addRowMonth t) acc

/-- Embedding of `df_to_html_table` (lines 125-159) with `ROW_LIMIT = None` (no `head`
truncation): the rendered `<table>` plus the updated month set. -/
def df_to_html_table (t : Table) (months : List String) : String × List String :=
  ("<table class=\"data-table\">" ++ theadHtml t ++ "<tbody>" ++
      String.join (tableRowsHtml t) ++ "</tbody></table>",
   dfMonths t months)

/-! ## Month aggregation across sheets (`main`, lines 295-324) -/

/-- State of `months_found` after processing every sheet: the single mutable set is
threaded through each `df_to_html_table` call. -/
def monthsFound (ts : List Table) : List String :=
  ts.foldl (fun acc t => (df_to_html_table t acc).2) []

/-- Code-point lexicographic comparison, Python's `str` order. -/
def lexLe : List Char → List Char → Bool
  | [], _ => true
  | _ :: _, [] => false
  | a :: as, b :: bs =>
    if a.toNat < b.toNat then true
    else if b.toNat < a.toNat then false
    else lexLe as bs

/-- Python `s <= t` on strings. -/
def strLexLe (a b : String) : Bool := lexLe a.data b.data

/-- Insert `x` into a `strLexLe`-sorted list, keeping it sorted. -/
def insertSorted (x : String) : List String → List String
  | [] => [x]
  | y :: ys => if strLexLe x y then x :: y :: ys else y :: insertSorted x ys

/-- Ascending insertion sort under `strLexLe`, the model of Python
`sorted(...)` on strings. -/
def sortStrs : List String → List String
  | [] => []
  | x :: xs => insertSorted x (sortStrs xs)

/-- Embedding of `months_sorted = sorted(months_found)` (line 324). -/
def months_sorted (ts : List Table) : List String :=
  sortStrs (monthsFound ts)

/-- One `<option>` of the month filter (lines 174-177). -/
def optionHtml (ym : String) : String :=
  "<option value=\"" ++ escape ym ++ "\">" ++ escape (month_label_from_ym ym) ++ "</option>"

/-- Python `"\n".join(options)` on character lists. -/
def joinSep (sep : List Char) : List String → List Char
  | [] => []
  | [s] => s.data
  | s :: rest => s.data ++ sep ++ joinSep sep rest

/-- Embedding of `options_html` (lines 173-178). -/
def optionsHtml (months : List String) : String :=
  String.mk (joinSep ['\n'] ("<option value=\"ALL\">Todos</option>" :: months.map optionHtml))

/-- The subtitle element of `build_html` (line 215), the one place the
source file name is embedded. -/
def subtitleHtml (excelName : String) : String :=
  "<div class=\"subtitle\">Fonte: " ++ escape excelName ++ "</div>"

/-! ## The end-to-end example sheet of the spec (§8) -/

/-- The spec's scenario sheet after `df["Data"] = df["Data"].map(fmt_date)`:
rows dated `05/01/2026` and `15/02/2026` plus one row whose raw date
`"abc"` is unparseable (`pd.to_datetime` coerces it to `NaT`, so
`fmt_date` yields `""`). -/
def exampleSheet : Table :=
  { headers := [some "Data", some "Valor"],
    rows := [[some (fmt_date (some ⟨5, 1, 2026⟩)), some "10"],
             [some (fmt_date (some ⟨15, 2, 2026⟩)), some "20"],
             [some (fmt_date none), some "30"]] }

/-! # Supporting lemmas -/

theorem daysInMonth_le (m y : Nat) : daysInMonth m y ≤ 31 := by
  unfold daysInMonth
  split
  · split <;> omega
  · split <;> omega

theorem digitChar0_val : ∀ m, m < 10 → digitVal (digitChar0 m) = m := by decide

theorem digitChar0_digit : ∀ m, m < 10 → isDigitCh (digitChar0 m) = true := by decide

theorem digitVal_digitChar (k : Nat) : digitVal (digitChar k) = k % 10 :=
  digitChar0_val _ (Nat.mod_lt _ (by omega))

theorem isDigitCh_digitChar (k : Nat) : isDigitCh (digitChar k) = true :=
  digitChar0_digit _ (Nat.mod_lt _ (by omega))

theorem natDigitsAux_big {fuel n : Nat} (h : ¬ n < 10) :
    natDigitsAux (fuel + 1) n = natDigitsAux fuel (n / 10) ++ [digitChar n] := by
  simp [natDigitsAux, h]

theorem natDigitsAux_small {fuel n : Nat} (h : n < 10) :
    natDigitsAux (fuel + 1) n = [digitChar n] := by
  simp [natDigitsAux, h]

theorem natDigits_four {y : Nat} (h1 : 1000 ≤ y) (h2 : y ≤ 9999) :
    natDigits y = pad4 y := by
  have e1 : natDigits y = natDigitsAux 39 (y / 10) ++ [digitChar y] :=
    @natDigitsAux_big 39 y (by omega)
  have e2 : natDigitsAux 39 (y / 10) = natDigitsAux 38 (y / 10 / 10) ++ [digitChar (y / 10)] :=
    @natDigitsAux_big 38 (y / 10) (by omega)
  have e3 : natDigitsAux 38 (y / 10 / 10) =
      natDigitsAux 37 (y / 10 / 10 / 10) ++ [digitChar (y / 10 / 10)] :=
    @natDigitsAux_big 37 (y / 10 / 10) (by omega)
  have e4 : natDigitsAux 37 (y / 10 / 10 / 10) = [digitChar (y / 10 / 10 / 10)] :=
    @natDigitsAux_small 36 (y / 10 / 10 / 10) (by omega)
  have d2 : y / 10 / 10 = y / 100 := by omega
  have d3 : y / 10 / 10 / 10 = y / 1000 := by omega
  rw [e1, e2, e3, e4, d3, d2]
  simp [pad4]

theorem parse_fmt_date (d : Date) (h : ValidTs d) :
    parseDdMmYyyy (fmt_date (some d)) = some d := by
  obtain ⟨h1, h2, h3, h4, h5, h6⟩ := h
  have hday : d.day ≤ 31 := le_trans h2 (daysInMonth_le _ _)
  simp only [fmt_date, pad2, pad4, List.cons_append, List.nil_append, parseDdMmYyyy]
  simp only [isDigitCh_digitChar, digitVal_digitChar, Bool.and_self, if_true]
  have hdd : 10 * (d.day / 10 % 10) + d.day % 10 = d.day := by omega
  have hmm : 10 * (d.month / 10 % 10) + d.month % 10 = d.month := by omega
  have hyy : 1000 * (d.year / 1000 % 10) + 100 * (d.year / 100 % 10) +
      10 * (d.year / 10 % 10) + d.year % 10 = d.year := by omega
  rw [hdd, hmm, hyy]
  rw [if_pos (show ValidTs ⟨d.day, d.month, d.year⟩ from ⟨h1, h2, h3, h4, h5, h6⟩)]

theorem parseDdMmYyyy_valid {s : String} {d : Date} (h : parseDdMmYyyy s = some d) :
    ValidTs d := by
  unfold parseDdMmYyyy at h
  split at h
  · split at h
    · split at h
      · injection h with h'
        subst h'
        assumption
      · exact absurd h (by simp)
    · exact absurd h (by simp)
  · exact absurd h (by simp)

theorem ym_fmt (d : Date) (h : ValidTs d) :
    ym_from_date_str (fmt_date (some d)) = ymOfDate d := by
  have hne : fmt_date (some d) ≠ "" := by
    simp [fmt_date, pad2, pad4, String.ext_iff]
  unfold ym_from_date_str
  rw [if_neg hne, parse_fmt_date d h]
  rfl

theorem isValidYM_ymOfDate (d : Date) (h : ValidTs d) : isValidYM (ymOfDate d) = true := by
  obtain ⟨h1, h2, h3, h4, h5, h6⟩ := h
  unfold ymOfDate isValidYM
  rw [natDigits_four (by omega) (by omega)]
  simp only [pad4, pad2, List.cons_append, List.nil_append]
  simp [isDigitCh_digitChar, digitVal_digitChar]
  omega

theorem lookup_mem {β : Type} {m : List (Char × β)} {k : Char} {v : β}
    (h : m.lookup k = some v) : (k, v) ∈ m := by
  induction m with
  | nil => simp [List.lookup] at h
  | cons p t ih =>
    obtain ⟨a, b⟩ := p
    rw [List.lookup] at h
    by_cases hk : (k == a) = true
    · rw [hk] at h
      injection h with h'
      have hka : k = a := by simpa using hk
      subst hka
      subst h'
      exact List.mem_cons_self _ _
    · have hk' : (k == a) = false := by simpa using hk
      rw [hk'] at h
      exact List.mem_cons_of_mem _ (ih h)

theorem lowerMap_vals :
    ∀ p ∈ lowerMap, lowerMap.lookup p.2 = none ∧ isWs p.1 = false ∧ isWs p.2 = false := by
  decide

theorem lowerChar_lowerChar (c : Char) : lowerChar (lowerChar c) = lowerChar c := by
  cases h : lowerMap.lookup c with
  | none => simp [lowerChar, h]
  | some d =>
    have hm := lowerMap_vals _ (lookup_mem h)
    simp [lowerChar, h, hm.1]

theorem decompMap_vals :
    ∀ p ∈ decompMap, ∀ d ∈ p.2, lowerMap.lookup d = none ∧ decompMap.lookup d = none := by
  decide

theorem normChars_mem_fix {c d : Char} (hd : d ∈ normChars c) : normChars d = [d] := by
  unfold normChars decompChar at hd ⊢
  cases h : decompMap.lookup (lowerChar c) with
  | some out =>
    rw [h] at hd
    simp at hd
    have hp := decompMap_vals (lowerChar c, out) (lookup_mem h) d hd
    rw [show lowerChar d = d from by simp [lowerChar, hp.1], hp.2]
    rfl
  | none =>
    rw [h] at hd
    simp at hd
    subst hd
    rw [lowerChar_lowerChar, h]
    rfl

theorem flatMap_normChars_fix : ∀ m : List Char, (∀ d ∈ m, normChars d = [d]) →
    m.flatMap normChars = m := by
  intro m
  induction m with
  | nil => intro _; rfl
  | cons d t ih =>
    intro h
    rw [List.flatMap_cons, h d (List.mem_cons_self _ _),
      ih (fun x hx => h x (List.mem_cons_of_mem _ hx))]
    rfl

theorem mem_trimL {d : Char} : ∀ {l : List Char}, d ∈ trimL l → d ∈ l := by
  intro l
  induction l with
  | nil => intro h; exact h
  | cons c cs ih =>
    intro h
    by_cases hw : isWs c = true
    · simp only [trimL, hw, if_true] at h
      exact List.mem_cons_of_mem _ (ih h)
    · simp only [trimL, hw, Bool.false_eq_true, if_false] at h
      exact h

theorem mem_trimR {d : Char} : ∀ {l : List Char}, d ∈ trimR l → d ∈ l := by
  intro l
  induction l with
  | nil => intro h; exact h
  | cons c cs ih =>
    intro h
    simp only [trimR] at h
    by_cases hc : ((trimR cs).isEmpty && isWs c) = true
    · rw [if_pos hc] at h
      exact absurd h (List.not_mem_nil d)
    · rw [if_neg hc] at h
      rcases List.mem_cons.1 h with rfl | h
      · exact List.mem_cons_self _ _
      · exact List.mem_cons_of_mem _ (ih h)

theorem mem_pyStrip {d : Char} {l : List Char} (h : d ∈ pyStrip l) : d ∈ l :=
  mem_trimL (mem_trimR h)

theorem norm_second_pass (s : String) :
    norm (some (norm (some s))) = pyStripStr (norm (some s)) := by
  have hfix : ∀ d ∈ pyStrip ((pyStrip s.data).flatMap normChars), normChars d = [d] := by
    intro d hd
    rcases List.mem_flatMap.1 (mem_pyStrip hd) with ⟨c, _, hdc⟩
    exact normChars_mem_fix hdc
  show String.mk ((pyStrip ((pyStrip s.data).flatMap normChars)).flatMap normChars) =
    String.mk (pyStrip ((pyStrip s.data).flatMap normChars))
  exact congrArg String.mk (flatMap_normChars_fix _ hfix)

theorem lexLe_cons_iff (x y : Char) (xs ys : List Char) :
    lexLe (x :: xs) (y :: ys) = true ↔
      x.toNat < y.toNat ∨ (x.toNat = y.toNat ∧ lexLe xs ys = true) := by
  simp only [lexLe]
  split_ifs with h1 h2
  · simp [h1]
  · constructor
    · intro h
      exact absurd h (by simp)
    · rintro (h | ⟨h, h'⟩) <;> (exfalso; omega)
  · have hxy : x.toNat = y.toNat := by omega
    simp [hxy]

theorem lexLe_total : ∀ a b : List Char, lexLe a b = true ∨ lexLe b a = true := by
  intro a
  induction a with
  | nil => intro b; exact Or.inl rfl
  | cons x xs ih =>
    intro b
    cases b with
    | nil => exact Or.inr rfl
    | cons y ys =>
      rw [lexLe_cons_iff, lexLe_cons_iff]
      rcases Nat.lt_trichotomy x.toNat y.toNat with h | h | h
      · exact Or.inl (Or.inl h)
      · rcases ih ys with h' | h'
        · exact Or.inl (Or.inr ⟨h, h'⟩)
        · exact Or.inr (Or.inr ⟨h.symm, h'⟩)
      · exact Or.inr (Or.inl h)

theorem lexLe_trans :
    ∀ a b c : List Char, lexLe a b = true → lexLe b c = true → lexLe a c = true := by
  intro a
  induction a with
  | nil => intro b c _ _; rfl
  | cons x xs ih =>
    intro b c hab hbc
    cases b with
    | nil => simp [lexLe] at hab
    | cons y ys =>
      cases c with
      | nil => simp [lexLe] at hbc
      | cons z zs =>
        rw [lexLe_cons_iff] at hab hbc ⊢
        rcases hab with h | ⟨h, h'⟩ <;> rcases hbc with g | ⟨g, g'⟩
        · exact Or.inl (by omega)
        · exact Or.inl (by omega)
        · exact Or.inl (by omega)
        · exact Or.inr ⟨by omega, ih ys zs h' g'⟩

theorem strLexLe_total (a b : String) : strLexLe a b = true ∨ strLexLe b a = true :=
  lexLe_total a.data b.data

theorem strLexLe_trans {a b c : String} (h1 : strLexLe a b = true)
    (h2 : strLexLe b c = true) : strLexLe a c = true :=
  lexLe_trans a.data b.data c.data h1 h2

theorem mem_insertSorted {a x : String} : ∀ {l : List String},
    a ∈ insertSorted x l ↔ a = x ∨ a ∈ l := by
  intro l
  induction l with
  | nil => simp [insertSorted]
  | cons y ys ih =>
    unfold insertSorted
    split
    · simp [List.mem_cons]
    · simp only [List.mem_cons, ih]
      tauto

theorem pairwise_insertSorted {x : String} : ∀ {l : List String},
    l.Pairwise (fun a b => strLexLe a b = true) →
    (insertSorted x l).Pairwise (fun a b => strLexLe a b = true) := by
  intro l
  induction l with
  | nil => intro _; simp [insertSorted]
  | cons y ys ih =>
    intro hp
    rcases List.pairwise_cons.1 hp with ⟨hy, hys⟩
    unfold insertSorted
    split
    · rename_i hxy
      refine List.pairwise_cons.2 ⟨?_, hp⟩
      intro b hb
      rcases List.mem_cons.1 hb with rfl | hb
      · exact hxy
      · exact strLexLe_trans hxy (hy b hb)
    · rename_i hxy
      have hyx : strLexLe y x = true := by
        rcases strLexLe_total x y with h | h
        · exact absurd h hxy
        · exact h
      refine List.pairwise_cons.2 ⟨?_, ih hys⟩
      intro b hb
      rcases mem_insertSorted.1 hb with rfl | hb
      · exact hyx
      · exact hy b hb

theorem insertSorted_perm (x : String) : ∀ l : List String,
    (insertSorted x l).Perm (x :: l) := by
  intro l
  induction l with
  | nil => exact List.Perm.refl _
  | cons y ys ih =>
    unfold insertSorted
    split
    · exact List.Perm.refl _
    · exact (ih.cons y).trans (List.Perm.swap x y ys)

theorem sortStrs_perm : ∀ l : List String, (sortStrs l).Perm l := by
  intro l
  induction l with
  | nil => exact List.Perm.refl _
  | cons x xs ih =>
    exact (insertSorted_perm x (sortStrs xs)).trans (ih.cons x)

theorem sortStrs_pairwise : ∀ l : List String,
    (sortStrs l).Pairwise (fun a b => strLexLe a b = true) := by
  intro l
  induction l with
  | nil => simp [sortStrs]
  | cons x xs ih => exact pairwise_insertSorted ih

theorem mem_setInsert {a x : String} {l : List String} :
    a ∈ setInsert l x ↔ a = x ∨ a ∈ l := by
  unfold setInsert
  split
  · rename_i h
    constructor
    · exact Or.inr
    · rintro (rfl | h2)
      · exact h
      · exact h2
  · simp [List.mem_cons]

theorem nodup_setInsert {x : String} {l : List String} (h : l.Nodup) :
    (setInsert l x).Nodup := by
  unfold setInsert
  split
  · exact h
  · rename_i hx
    exact List.nodup_cons.2 ⟨hx, h⟩

theorem mem_addRowMonth {t : Table} {r : List (Option String)} {acc : List String}
    {a : String} :
    a ∈ addRowMonth t acc r ↔ a ∈ acc ∨ (¬ a = "" ∧ rowMonthKey t r = a) := by
  unfold addRowMonth
  by_cases hk : rowMonthKey t r = ""
  · rw [if_pos hk]
    constructor
    · exact Or.inl
    · rintro (h | ⟨h1, h2⟩)
      · exact h
      · exact absurd (h2 ▸ hk) h1
  · rw [if_neg hk, mem_setInsert]
    constructor
    · rintro (rfl | h)
      · exact Or.inr ⟨hk, rfl⟩
      · exact Or.inl h
    · rintro (h | ⟨h1, h2⟩)
      · exact Or.inr h
      · exact Or.inl h2.symm

theorem mem_foldl_addRowMonth (t : Table) (a : String) :
    ∀ (rows : List (List (Option String))) (acc : List String),
      a ∈ rows.foldl (addRowMonth t) acc ↔
        a ∈ acc ∨ (¬ a = "" ∧ ∃ row ∈ rows, rowMonthKey t row = a) := by
  intro rows
  induction rows with
  | nil => intro acc; simp
  | cons r rs ih =>
    intro acc
    rw [List.foldl_cons, ih, mem_addRowMonth]
    constructor
    · rintro ((h | ⟨h1, h2⟩) | ⟨h1, row, hrow, h2⟩)
      · exact Or.inl h
      · exact Or.inr ⟨h1, r, List.mem_cons_self _ _, h2⟩
      · exact Or.inr ⟨h1, row, List.mem_cons_of_mem _ hrow, h2⟩
    · rintro (h | ⟨h1, row, hrow, h2⟩)
      · exact Or.inl (Or.inl h)
      · rcases List.mem_cons.1 hrow with rfl | hrow
        · exact Or.inl (Or.inr ⟨h1, h2⟩)
        · exact Or.inr ⟨h1, row, hrow, h2⟩

theorem nodup_foldl_addRowMonth (t : Table) :
    ∀ (rows : List (List (Option String))) (acc : List String), acc.Nodup →
      (rows.foldl (addRowMonth t) acc).Nodup := by
  intro rows
  induction rows with
  | nil => intro acc h; exact h
  | cons r rs ih =>
    intro acc h
    rw [List.foldl_cons]
    apply ih
    unfold addRowMonth
    by_cases hk : rowMonthKey t r = ""
    · simpa [hk] using h
    · simpa [hk] using @nodup_setInsert (rowMonthKey t r) acc h

theorem mem_monthsFound {a : String} (ts : List Table) :
    a ∈ monthsFound ts ↔
      ∃ t ∈ ts, ¬ a = "" ∧ ∃ row ∈ t.rows, rowMonthKey t row = a := by
  have aux : ∀ (ts : List Table) (acc : List String),
      a ∈ ts.foldl (fun acc t => (df_to_html_table t acc).2) acc ↔
        a ∈ acc ∨ ∃ t ∈ ts, ¬ a = "" ∧ ∃ row ∈ t.rows, rowMonthKey t row = a := by
    intro ts
    induction ts with
    | nil => intro acc; simp
    | cons t ts ih =>
      intro acc
      rw [List.foldl_cons, ih,
        show (df_to_html_table t acc).2 = t.rows.foldl (addRowMonth t) acc from rfl,
        mem_foldl_addRowMonth]
      constructor
      · rintro ((h | ⟨h1, row, hrow, h2⟩) | ⟨t', ht', h1, row, hrow, h2⟩)
        · exact Or.inl h
        · exact Or.inr ⟨t, List.mem_cons_self _ _, h1, row, hrow, h2⟩
        · exact Or.inr ⟨t', List.mem_cons_of_mem _ ht', h1, row, hrow, h2⟩
      · rintro (h | ⟨t', ht', h1, row, hrow, h2⟩)
        · exact Or.inl (Or.inl h)
        · rcases List.mem_cons.1 ht' with rfl | ht'
          · exact Or.inl (Or.inr ⟨h1, row, hrow, h2⟩)
          · exact Or.inr ⟨t', ht', h1, row, hrow, h2⟩
  rw [show monthsFound ts = ts.foldl (fun acc t => (df_to_html_table t acc).2) [] from rfl,
    aux ts []]
  simp

theorem nodup_monthsFound (ts : List Table) : (monthsFound ts).Nodup := by
  have aux : ∀ (ts : List Table) (acc : List String), acc.Nodup →
      (ts.foldl (fun acc t => (df_to_html_table t acc).2) acc).Nodup := by
    intro ts
    induction ts with
    | nil => intro acc h; exact h
    | cons t ts ih =>
      intro acc h
      rw [List.foldl_cons]
      exact ih _ (nodup_foldl_addRowMonth t t.rows acc h)
  exact aux ts [] List.nodup_nil

theorem strData_append (a b : String) : (a ++ b).data = a.data ++ b.data := by
  cases a
  cases b
  rfl

theorem countCh_append (c : Char) (a b : String) :
    countCh c (a ++ b) = countCh c a + countCh c b := by
  unfold countCh
  rw [strData_append, List.count_append]

theorem strData_foldl (l : List String) :
    ∀ a : String,
      (l.foldl (fun r s => r ++ s) a).data = a.data ++ (l.map String.data).flatten := by
  induction l with
  | nil => intro a; simp
  | cons s rest ih =>
    intro a
    rw [List.foldl_cons, ih, strData_append]
    simp

theorem strData_join (l : List String) :
    (String.join l).data = (l.map String.data).flatten := by
  rw [show String.join l = l.foldl (fun r s => r ++ s) "" from rfl, strData_foldl]
  rfl

theorem countCh_join (c : Char) (l : List String) :
    countCh c (String.join l) = (l.map (countCh c)).sum := by
  unfold countCh
  rw [strData_join, List.count_flatten, List.map_map]
  rfl

theorem count_escapeChar (c a : Char) (hc : c = '<' ∨ c = '>' ∨ c = '"') :
    (escapeChar a).count c = 0 := by
  unfold escapeChar
  rcases hc with rfl | rfl | rfl <;> split_ifs with h1 h2 h3 h4 h5 <;>
    first
      | decide
      | simp_all [List.count_cons, beq_iff_eq]

theorem countCh_escape (c : Char) (hc : c = '<' ∨ c = '>' ∨ c = '"') (s : String) :
    countCh c (escape s) = 0 := by
  show (s.data.flatMap escapeChar).count c = 0
  induction s.data with
  | nil => rfl
  | cons a t ih =>
    rw [List.flatMap_cons, List.count_append, count_escapeChar c a hc, ih]

theorem countCh_thCell (c0 : String) : countCh '<' (thCell c0) = 2 := by
  unfold thCell
  rw [countCh_append, countCh_append, countCh_escape _ (Or.inl rfl)]
  decide

theorem countCh_tdCell (v : Option String) : countCh '<' (tdCell v) = 2 := by
  unfold tdCell
  rw [countCh_append, countCh_append, countCh_escape _ (Or.inl rfl)]
  decide

theorem sum_map_const_two {α : Type} (l : List α) (f : α → String)
    (hf : ∀ a, countCh '<' (f a) = 2) :
    ((l.map f).map (countCh '<')).sum = 2 * l.length := by
  induction l with
  | nil => rfl
  | cons a t ih =>
    rw [List.map_cons, List.map_cons, List.sum_cons, hf a, ih, List.length_cons]
    omega

theorem countCh_tds (row : List (Option String)) :
    countCh '<' (String.join (row.map tdCell)) = 2 * row.length := by
  rw [countCh_join]
  exact sum_map_const_two row tdCell countCh_tdCell

theorem countCh_thead (t : Table) :
    countCh '<' (theadHtml t) = 4 + 2 * t.headers.length := by
  unfold theadHtml
  rw [countCh_append, countCh_append, countCh_join,
    sum_map_const_two (colNames t) thCell countCh_thCell,
    show (colNames t).length = t.headers.length from List.length_map _ _]
  have ha : countCh '<' "<thead><tr>" = 2 := by decide
  have hb : countCh '<' "</tr></thead>" = 2 := by decide
  rw [ha, hb]
  omega

theorem countCh_rowHtml (t : Table) (row : List (Option String)) :
    countCh '<' (rowHtml t row) = 2 + 2 * row.length := by
  simp only [rowHtml]
  by_cases h : rowMonthKey t row = ""
  · rw [if_pos h, countCh_append, countCh_append, countCh_tds]
    have ha : countCh '<' "<tr>" = 1 := by decide
    have hb : countCh '<' "</tr>" = 1 := by decide
    rw [ha, hb]
    omega
  · rw [if_neg h, countCh_append, countCh_append, countCh_append, countCh_append,
      countCh_escape _ (Or.inl rfl), countCh_tds]
    have ha : countCh '<' "<tr data-month=\"" = 1 := by decide
    have hb : countCh '<' "\">" = 0 := by decide
    have hd : countCh '<' "</tr>" = 1 := by decide
    rw [ha, hb, hd]
    omega

theorem countCh_table (t : Table) (months : List String) :
    countCh '<' ((df_to_html_table t months).1) =
      8 + 2 * t.headers.length + (t.rows.map (fun r => 2 + 2 * r.length)).sum := by
  show countCh '<' ("<table class=\"data-table\">" ++ theadHtml t ++ "<tbody>" ++
      String.join (tableRowsHtml t) ++ "</tbody></table>") = _
  rw [countCh_append, countCh_append, countCh_append, countCh_append,
    countCh_thead, countCh_join]
  have hmap : ((tableRowsHtml t).map (countCh '<')).sum =
      (t.rows.map (fun r => 2 + 2 * r.length)).sum := by
    unfold tableRowsHtml
    rw [List.map_map]
    congr 1
    exact List.map_congr_left fun r _ => countCh_rowHtml t r
  rw [hmap]
  have h1 : countCh '<' "<table class=\"data-table\">" = 1 := by decide
  have h2 : countCh '<' "<tbody>" = 1 := by decide
  have h3 : countCh '<' "</tbody></table>" = 2 := by decide
  rw [h1, h2, h3]
  omega

theorem count_joinSep (c : Char) (sep : List Char) (hsep : sep.count c = 0) :
    ∀ l : List String, (joinSep sep l).count c = (l.map (countCh c)).sum := by
  intro l
  induction l with
  | nil => rfl
  | cons s rest ih =>
    cases rest with
    | nil => simp [joinSep, countCh]
    | cons r rs =>
      rw [show joinSep sep (s :: r :: rs) = s.data ++ sep ++ joinSep sep (r :: rs) from rfl,
        List.count_append, List.count_append, hsep, ih, List.map_cons, List.sum_cons]
      simp [countCh]

theorem countCh_optionHtml (ym : String) : countCh '<' (optionHtml ym) = 2 := by
  unfold optionHtml
  rw [countCh_append, countCh_append, countCh_append, countCh_append,
    countCh_escape _ (Or.inl rfl), countCh_escape _ (Or.inl rfl)]
  decide

theorem countCh_options (months : List String) :
    countCh '<' (optionsHtml months) = 2 + 2 * months.length := by
  show (joinSep ['\n']
      ("<option value=\"ALL\">Todos</option>" :: months.map optionHtml)).count '<' = _
  rw [count_joinSep _ _ (by decide), List.map_cons, List.sum_cons,
    sum_map_const_two months optionHtml countCh_optionHtml]
  have h0 : countCh '<' "<option value=\"ALL\">Todos</option>" = 2 := by decide
  rw [h0]

theorem countCh_subtitle (name : String) : countCh '<' (subtitleHtml name) = 2 := by
  unfold subtitleHtml
  rw [countCh_append, countCh_append, countCh_escape _ (Or.inl rfl)]
  decide

/-! # Claim theorems -/

/-- C1 (counterexample): the claim predicts that the spec scenario sheet —
rows dated `05/01/2026` and `15/02/2026` plus one row whose raw date `"abc"`
is unparseable — yields exactly 2 output rows; `df_to_html_table` in fact
renders all 3. -/
theorem c1_unparseable_rows_kept_counterexample :
    (tableRowsHtml exampleSheet).length = 3 ∧
      ¬ (tableRowsHtml exampleSheet).length = 2 := by
  decide

/-- C1 (amended): a row whose date fails to parse is not dropped:
`df_to_html_table` renders exactly one `<tr>` per input row; a row with an
empty month key is rendered without a `data-month` attribute (so it is
matched by no month filter other than "ALL"); on the spec scenario sheet
this gives 3 output rows whose collected month keys are `2026-01` and
`2026-02`. -/
theorem c1_unparseable_rows_kept :
    (∀ t : Table, (tableRowsHtml t).length = t.rows.length) ∧
    (∀ (t : Table) (row : List (Option String)), rowMonthKey t row = "" →
      rowHtml t row = "<tr>" ++ String.join (row.map tdCell) ++ "</tr>") ∧
    (tableRowsHtml exampleSheet).length = 3 ∧
    months_sorted [exampleSheet] = ["2026-01", "2026-02"] := by
  refine ⟨fun t => List.length_map _ _, ?_, by decide, by decide⟩
  intro t row h
  simp [rowHtml, h]

/-- C1 witness: the third scenario row has an empty month key and is
rendered as a plain `<tr>`. -/
theorem c1_unparseable_rows_kept_witness :
    rowMonthKey exampleSheet [some "", some "30"] = "" ∧
      rowHtml exampleSheet [some "", some "30"] = "<tr><td></td><td>30</td></tr>" := by
  refine ⟨by decide, ?_⟩
  rw [c1_unparseable_rows_kept.2.1 exampleSheet [some "", some "30"] (by decide)]
  decide

/-- C2 (counterexample): `fmt_money` does not round with half-up semantics
on an exact decimal: on input `0.125` (exactly representable in binary) the
code formats the binary double with ties-to-even and prints `R$ 0,12`,
while the spec's decimal round-half-up contract prints `R$ 0,13`. -/
theorem c2_half_up_decimal_counterexample :
    fmt_money (some "0.125") = "R$ 0,12" ∧
    specMoneyHalfUp (some "0.125") = "R$ 0,13" ∧
    ¬ fmt_money (some "0.125") = specMoneyHalfUp (some "0.125") := by
  decide

/-- C2 (amended): `fmt_money` converts the text to a binary double and
formats it with correctly-rounded two-decimal output, ties to even (so
`0.125` prints as `R$ 0,12`); on the spec's probe value
`5182575.239999999` the output is still exactly `R$ 5.182.575,24`, with no
spurious digits. -/
theorem c2_money_binary_rounding :
    fmt_money (some "5182575.239999999") = "R$ 5.182.575,24" ∧
    fmt_money (some "0.125") = "R$ 0,12" := by
  decide

/-- C3 (confirmed): the separator algorithm of `fmt_money` — strip `'.'`
then `','` to `'.'` when both are present; `','` to `'.'` when only `','`
is present; as-is otherwise — sends `"1.234.567,89"` and `"1234567.89"` to
the same text, both parse to the exact value `1234567.89`, and both format
to the same output.  The third input, the Python float `1234567.89`,
reaches the formatter as `str(x) = "1234567.89"`, the second input. -/
theorem c3_separator_algorithm :
    moneySeparatorNormalize "1.234.567,89".data = "1234567.89".data ∧
    parseDecimal? (moneySeparatorNormalize "1.234.567,89".data) = some ⟨123456789, 100⟩ ∧
    parseDecimal? (moneySeparatorNormalize "1234567.89".data) = some ⟨123456789, 100⟩ ∧
    fmt_money (some "1.234.567,89") = fmt_money (some "1234567.89") ∧
    fmt_money (some "1234567.89") = "R$ 1.234.567,89" := by
  decide

/-- C4 (counterexample): the claim scales every value whose magnitude lies
in `[0, 1]`; the code's guard is `0 <= v <= 1` on the signed value, so
`-0.5` (magnitude `0.5`) is not scaled: the output is `-0,50%`, not
`-50,00%`. -/
theorem c4_efficiency_scaling_counterexample :
    fmt_efficiency (some "-0.5") = "-0,50%" ∧
      ¬ fmt_efficiency (some "-0.5") = "-50,00%" := by
  decide

/-- C4 (amended): `fmt_efficiency` strips `'%'`, normalizes the decimal
comma, and scales by 100 exactly when the signed value lies in `[0, 1]`:
`0.3333` and `"33,33"` both print `33,33%`, the boundary `1.0` is scaled to
`100,00%`, `1.0000001` is not scaled, and negative values pass through
unscaled. -/
theorem c4_efficiency_scaling :
    fmt_efficiency (some "0.3333") = "33,33%" ∧
    fmt_efficiency (some "33,33") = "33,33%" ∧
    fmt_efficiency (some "1.0") = "100,00%" ∧
    fmt_efficiency (some "1.0000001") = "1,00%" ∧
    fmt_efficiency (some "-0.5") = "-0,50%" := by
  decide

/-- C5 (counterexample): `fmt_money` does substitute a default itself: a
missing (`NaN`) or blank cell becomes the displayed zero amount
`"R$ 0,00"`, not an absent value. -/
theorem c5_money_absent_counterexample :
    fmt_money none = "R$ 0,00" ∧ fmt_money (some "") = "R$ 0,00" ∧
      ¬ (("R$ 0,00" : String) = "") := by
  decide

/-- C5 (amended): `fmt_money` never raises and never yields an absent
marker: missing and blank-sentinel cells become the default `"R$ 0,00"`
in the formatter itself, and a non-sentinel unparseable value is returned
unchanged (stripped), so a bad cell never propagates as an error. -/
theorem c5_money_fallbacks :
    fmt_money none = "R$ 0,00" ∧
    fmt_money (some "-") = "R$ 0,00" ∧
    (∀ s : String, isNullSentinel (String.mk (pyStrip s.data)) = false →
      parseDecimal? (moneySeparatorNormalize (pyStrip s.data)) = none →
      fmt_money (some s) = String.mk (pyStrip s.data)) := by
  refine ⟨by decide, by decide, ?_⟩
  intro s h1 h2
  simp [fmt_money, h1, h2]

/-- C5 witness: the unparseable input `" abc "` is returned stripped. -/
theorem c5_money_fallbacks_witness :
    isNullSentinel (String.mk (pyStrip " abc ".data)) = false ∧
    fmt_money (some " abc ") = "abc" := by
  refine ⟨by decide, ?_⟩
  rw [c5_money_fallbacks.2.2 " abc " (by decide) (by decide)]
  decide

/-- C6 (confirmed): every derived month key is either empty or a
well-formed `YYYY-MM` string with zero-padded month; and for every parsed
date, the month key obtained from the `dd/mm/yyyy` display form agrees in
year and month with that same parsed value (`ymOfDate`), so display and
partition key cannot drift; a missing date gives the empty key. -/
theorem c6_month_key_well_formed :
    (∀ s : String, ym_from_date_str s = "" ∨ isValidYM (ym_from_date_str s) = true) ∧
    (∀ d : Date, ValidTs d →
      ym_from_date_str (fmt_date (some d)) = ymOfDate d ∧
      isValidYM (ymOfDate d) = true) ∧
    ym_from_date_str (fmt_date none) = "" := by
  refine ⟨?_, fun d h => ⟨ym_fmt d h, isValidYM_ymOfDate d h⟩, by decide⟩
  intro s
  unfold ym_from_date_str
  by_cases h0 : s = ""
  · left
    simp [h0]
  · rw [if_neg h0]
    cases hp : parseDdMmYyyy s with
    | none => left; rfl
    | some d =>
      right
      exact isValidYM_ymOfDate d (parseDdMmYyyy_valid hp)

/-- C6 witness: the date 05/01/2026 round-trips to the month key
`2026-01`, which is well-formed. -/
theorem c6_month_key_well_formed_witness :
    ValidTs ⟨5, 1, 2026⟩ ∧ ym_from_date_str (fmt_date (some ⟨5, 1, 2026⟩)) = "2026-01" ∧
      isValidYM "2026-01" = true := by
  refine ⟨by decide, ?_, by decide⟩
  rw [(c6_month_key_well_formed.2.1 ⟨5, 1, 2026⟩ (by decide)).1]
  decide

/-- C7 (counterexample): `norm` is not idempotent for all strings: the
NFKD step runs after the strip, so the spacing diaeresis `¨` decomposes to
a plain space that survives as the whole result, and a second application
strips it away — `norm "¨" = " "` but `norm (norm "¨") = ""`. -/
theorem c7_norm_idempotent_counterexample :
    norm (some "¨") = " " ∧ norm (some (norm (some "¨"))) = "" ∧
      ¬ norm (some (norm (some "¨"))) = norm (some "¨") := by
  decide

/-- C7 (amended): the normalizer is total by construction (a Lean
function; missing/`None` maps to `""`) and sends "Eficiência",
"EFICIENCIA" and "eficiencia " to the same string `"eficiencia"`; but
because the trim precedes the NFKD decomposition, it is idempotent only up
to a re-trim: a second application equals stripping the first
(`norm ∘ norm = strip ∘ norm`), so idempotence holds exactly for inputs
whose normal form carries no edge whitespace. -/
theorem c7_norm_total_second_pass :
    norm none = "" ∧
    (∀ s : String, norm (some (norm (some s))) = pyStripStr (norm (some s))) ∧
    norm (some "Eficiência") = "eficiencia" ∧
    norm (some "EFICIENCIA") = "eficiencia" ∧
    norm (some "eficiencia ") = "eficiencia" :=
  ⟨rfl, norm_second_pass, by decide, by decide, by decide⟩

/-- C8 (confirmed): the per-column rules are ordered with the efficiency
check first: any header whose normalized form contains `"eficiencia"` is
classified `efficiency` even if it also contains `"r$"`; a header that
fails the efficiency test and contains `"r$"` or equals `"faturamento"` is
`money`; anything else is `plain`. -/
theorem c8_classifier_rule_order :
    (∀ h : String, containsTok "eficiencia" (norm (some h)) = true →
      classify h = ColKind.efficiency) ∧
    (∀ h : String, containsTok "eficiencia" (norm (some h)) = false →
      containsTok "r$" (norm (some h)) = true ∨ norm (some h) = "faturamento" →
      classify h = ColKind.money) ∧
    (∀ h : String, containsTok "eficiencia" (norm (some h)) = false →
      containsTok "r$" (norm (some h)) = false → ¬ norm (some h) = "faturamento" →
      classify h = ColKind.plain) := by
  refine ⟨?_, ?_, ?_⟩ <;> intro h
  · intro h1
    simp [classify, h1]
  · intro h1 h2
    rcases h2 with h2 | h2
    · simp [classify, h1, h2]
    · simp [classify, h1]
      simp [h2]
  · intro h1 h2 h3
    simp [classify, h1, h2, h3]

/-- C8 witness: a header containing both an efficiency token and a
currency token is classified `efficiency`, not `money`. -/
theorem c8_classifier_rule_order_witness :
    classify "Eficiência (R$)" = ColKind.efficiency ∧
    classify "Valor (R$)" = ColKind.money ∧
    classify "Data" = ColKind.plain :=
  ⟨c8_classifier_rule_order.1 _ (by decide),
   c8_classifier_rule_order.2.1 _ (by decide) (Or.inl (by decide)),
   c8_classifier_rule_order.2.2 _ (by decide) (by decide) (by decide)⟩

/-- C9 (confirmed): the month list fed to the filter is global — a key
appears in `months_sorted` exactly when some row of some sheet (any BU)
yields it as a non-empty month key — without duplicates and sorted
ascending in the code-point order Python's `sorted` uses on strings. -/
theorem c9_months_union_sorted (ts : List Table) :
    (∀ m : String, m ∈ months_sorted ts ↔
      ∃ t ∈ ts, ¬ m = "" ∧ ∃ row ∈ t.rows, rowMonthKey t row = m) ∧
    (months_sorted ts).Pairwise (fun a b => strLexLe a b = true) ∧
    (months_sorted ts).Nodup := by
  refine ⟨?_, sortStrs_pairwise _,
    (sortStrs_perm (monthsFound ts)).symm.nodup (nodup_monthsFound ts)⟩
  intro m
  rw [show months_sorted ts = sortStrs (monthsFound ts) from rfl,
    (sortStrs_perm (monthsFound ts)).mem_iff]
  exact mem_monthsFound ts

/-- C10 (confirmed): every datum embedded in the page goes through
`escape`, whose output never contains a raw `<`, `>` or `"`; consequently
the number of `<` characters in a rendered table is a function of its
dimensions alone — headers, cell values and month-key attributes cannot
inject markup — and likewise for the month `<option>` list (values and
labels) and the source-file-name subtitle. -/
theorem c10_embedded_strings_escaped :
    (∀ s : String, countCh '<' (escape s) = 0 ∧ countCh '>' (escape s) = 0 ∧
      countCh '"' (escape s) = 0) ∧
    (∀ (t : Table) (months : List String),
      countCh '<' ((df_to_html_table t months).1) =
        8 + 2 * t.headers.length + (t.rows.map (fun r => 2 + 2 * r.length)).sum) ∧
    (∀ months : List String, countCh '<' (optionsHtml months) = 2 + 2 * months.length) ∧
    (∀ name : String, countCh '<' (subtitleHtml name) = 2) :=
  ⟨fun s => ⟨countCh_escape _ (Or.inl rfl) s, countCh_escape _ (Or.inr (Or.inl rfl)) s,
      countCh_escape _ (Or.inr (Or.inr rfl)) s⟩,
   countCh_table, countCh_options, countCh_subtitle⟩

end Tabelao
